import Mathlib

/-
Verification of the MingoDB document-store core (mingodb.go, results.go).

The embedding models the Go source shallowly:
* BSON-representable runtime values are `BVal`; a document is an
  association list of field name to value (Go's map[string]interface{},
  with lookup/assignment given by `assocGet`/`assocSet`).
* The bolt engine is a `Store`: an association list from bucket name to
  `Bucket`, itself an association list from encoded key bytes to the
  stored (encoded) document.  `Put` overwrites an existing key, `Get`
  returns `none` when the key is absent, matching bbolt's contract.
* The BSON codec is an external collaborator providing a deterministic,
  round-tripping serialization; it is modeled by `encodeBVal` (value to
  canonical key bytes, failing on unencodable values) and `bsonMarshal`
  (identity on documents guarded by encodability of every field value).
* Go interface values passed to `InsertOne` are `GoVal`; a
  map[string]interface{} argument is a reference (`goStrMap r`) into a
  heap of live maps, so in-place mutation of the caller's map is
  observable.  `reflect.TypeOf` of an untyped nil interface is `none`,
  and calling `Kind()` on it panics, which the result type records as
  `panicked`.
* The ObjectID generator (primitive.NewObjectID) is modeled by a counter
  in the world state; `oidBytes n` is the 12-byte identifier produced at
  counter value `n`.
-/

namespace MingoDB

/-- BSON-representable runtime values appearing in documents and as ids.
`vUnenc` stands for a Go value the BSON codec cannot encode
(e.g. a channel or function), for which MarshalValue returns an error. -/
inductive BVal : Type where
  | vNull : BVal
  | vInt : Int → BVal
  | vStr : String → BVal
  | vOid : List Nat → BVal
  | vUnenc : BVal
deriving DecidableEq, Repr

/-- A document: a field-name-to-value association list, modeling Go's
map[string]interface{} contents. -/
abbrev Doc : Type := List (String × BVal)

/-- Association-list lookup (Go map read `m[k]`). -/
def assocGet {α β : Type} [DecidableEq α] : List (α × β) → α → Option β
  | [], _ => none
  | (k', v) :: rest, k => if k' = k then some v else assocGet rest k

/-- Association-list assignment (Go map write `m[k] = v`): replaces the
first binding of `k` or appends a fresh one. -/
def assocSet {α β : Type} [DecidableEq α] : List (α × β) → α → β → List (α × β)
  | [], k, v => [(k, v)]
  | (k', v') :: rest, k, v =>
      if k' = k then (k, v) :: rest else (k', v') :: assocSet rest k v

/-- Whether the BSON codec can encode this value. -/
def encodable : BVal → Bool
  | .vUnenc => false
  | _ => true

/-- Whether every field value of the document is encodable; exactly when
this holds does bson.Marshal of the document succeed. -/
def docEncodable (d : Doc) : Bool := d.all fun p => encodable p.2

/-- String bytes used inside the canonical key encoding. -/
def strBytes (s : String) : List Nat := s.data.map Char.toNat

/-- The 12-byte ObjectID produced when the generator's counter is `n`
(primitive.NewObjectID: timestamp/machine/counter entropy, modeled as the
base-256 digits of the counter). -/
def oidBytes (n : Nat) : List Nat := (List.range 12).map fun i => n / 256 ^ i % 256

/-- Canonical sortable byte encoding of a single value
(bson.MarshalValue); fails on unencodable values. -/
def encodeBVal : BVal → Option (List Nat)
  | .vNull => some [10]
  | .vInt n => some (16 :: (if n < 0 then 0 else 1) :: [n.natAbs])
  | .vStr s => some (2 :: strBytes s)
  | .vOid bs => some (7 :: bs)
  | .vUnenc => none

/-- Document serialization (bson.Marshal): the codec is an external
collaborator with a deterministic round trip, so encoded bytes are
modeled by the document itself, guarded by encodability. -/
def bsonMarshal (d : Doc) : Option Doc :=
  if docEncodable d then some d else none

/-- Encoded key bytes. -/
abbrev Key := List Nat

/-- One bolt bucket: key bytes to stored (encoded) document. -/
abbrev Bucket := List (Key × Doc)

/-- The bolt database contents: bucket name to bucket. -/
abbrev Store := List (String × Bucket)

/-- bolt Tx.CreateBucketIfNotExists: adds an empty bucket when absent,
leaves the store unchanged when present. -/
def createBucketIfNotExists (s : Store) (name : String) : Store :=
  match assocGet s name with
  | some _ => s
  | none => assocSet s name []

/-- Go interface values handed to InsertOne.  `goStruct` carries the
exported fields of a struct (structs.Map flattens them to a fresh map);
`goStrMap r` is a reference into the heap of live map[string]interface{}
objects; `goOtherMap` is a map of any other type, whose assertion to
map[string]interface{} fails; `goNil` is the untyped nil interface. -/
inductive GoVal : Type where
  | goNil : GoVal
  | goInt : Int → GoVal
  | goString : String → GoVal
  | goStruct : Doc → GoVal
  | goStrMap : Nat → GoVal
  | goOtherMap : GoVal
deriving DecidableEq, Repr

/-- reflect.Kind values distinguished by the source. -/
inductive GoKind : Type where
  | kStruct : GoKind
  | kMap : GoKind
  | kInt : GoKind
  | kString : GoKind
deriving DecidableEq, Repr

/-- reflect.TypeOf: `none` for the untyped nil interface (whose Kind()
call panics), otherwise the runtime kind. -/
def reflectTypeOf : GoVal → Option GoKind
  | .goNil => none
  | .goInt _ => some .kInt
  | .goString _ => some .kString
  | .goStruct _ => some .kStruct
  | .goStrMap _ => some .kMap
  | .goOtherMap => some .kMap

/-- Whether the argument's runtime shape is a struct or a
string-keyed field mapping (the shapes InsertOne accepts). -/
def isStructOrStrMap : GoVal → Bool
  | .goStruct _ => true
  | .goStrMap _ => true
  | _ => false

/-- The error values of the package. -/
inductive MErr : Type where
  | errInvalidType : MErr
  | errNotFound : MErr
  | errEmptyBucketName : MErr
  | errEncoding : MErr
deriving DecidableEq, Repr

/-- The mutable world an operation runs against: the bolt store, the Go
heap of live map[string]interface{} objects (indexed by reference), and
the ObjectID generator state. -/
structure World where
  store : Store
  heap : List Doc
  oidCounter : Nat
deriving DecidableEq, Repr

/-- Outcome of InsertOne: a runtime panic, an error return, or the
InsertID of the inserted document. -/
inductive InsertResult : Type where
  | panicked : InsertResult
  | fail : MErr → InsertResult
  | ok : BVal → InsertResult
deriving DecidableEq, Repr

/-- The canonical field map an InsertOne argument normalizes to:
a struct's exported-field map, or the referenced live map. -/
def normalizedDoc (w : World) : GoVal → Option Doc
  | .goStruct fields => some fields
  | .goStrMap r => some (w.heap.getD r [])
  | _ => none

/-- Collection.InsertOne, translated line by line from mingodb.go:
validate the argument's kind (panicking on a nil interface), normalize
to a map (struct copies, map aliases the caller's object), take the
`_id` field or generate-and-inject an ObjectID, marshal the id to key
bytes and the document to value bytes, then put into the collection's
bucket (overwriting any record under the same key). -/
def InsertOne (w : World) (cname : String) (doc : GoVal) : InsertResult × World :=
  match reflectTypeOf doc with
  | none => (.panicked, w)
  | some k =>
    if k ≠ GoKind.kStruct ∧ k ≠ GoKind.kMap then (.fail .errInvalidType, w)
    else
      let mm : Option (Doc × Option Nat) :=
        match doc with
        | .goStruct fields => some (fields, none)
        | .goStrMap r => some (w.heap.getD r [], some r)
        | _ => none
      match mm with
      | none => (.fail .errInvalidType, w)
      | some (m, mref) =>
        let step : BVal × Doc × List Doc × Nat :=
          match assocGet m "_id" with
          | some v => (v, m, w.heap, w.oidCounter)
          | none =>
            let newId := BVal.vOid (oidBytes w.oidCounter)
            let m2 := assocSet m "_id" newId
            let heap2 :=
              match mref with
              | some r => w.heap.set r m2
              | none => w.heap
            (newId, m2, heap2, w.oidCounter + 1)
        match step with
        | (id, m2, heap2, ctr2) =>
          let w1 : World := { w with heap := heap2, oidCounter := ctr2 }
          match encodeBVal id with
          | none => (.fail .errEncoding, w1)
          | some bid =>
            match bsonMarshal m2 with
            | none => (.fail .errEncoding, w1)
            | some bdoc =>
              match assocGet w1.store cname with
              | none => (.panicked, w1)
              | some b =>
                (.ok id,
                  { w1 with store := assocSet w1.store cname (assocSet b bid bdoc) })

/-- Outcome of GetByID: a runtime panic (nil bucket), an error, or the
decoded document. -/
inductive GetResult : Type where
  | panicked : GetResult
  | fail : MErr → GetResult
  | ok : Doc → GetResult
deriving DecidableEq, Repr

/-- Collection.GetByID from mingodb.go: marshal the id to key bytes,
point-lookup in the collection's bucket inside a read transaction
(a nil Get yields the "document not found" error), then unmarshal. -/
def GetByID (w : World) (cname : String) (id : BVal) : GetResult :=
  match encodeBVal id with
  | none => .fail .errEncoding
  | some bid =>
    match assocGet w.store cname with
    | none => .panicked
    | some b =>
      match assocGet b bid with
      | none => .fail .errNotFound
      | some bdoc => .ok bdoc

/-- The Database object: its path and the bolt store it owns. -/
structure Database where
  Path : String
  store : Store
deriving DecidableEq, Repr

/-- A Collection handle: the pointer to its parent Database (identified
by the database's path) and the collection name. -/
structure CollectionHandle where
  dbPath : String
  name : String
deriving DecidableEq, Repr

/-- Collection.Name from mingodb.go. -/
def CollectionHandle.Name (c : CollectionHandle) : String := c.name

/-- Collection.Database from mingodb.go (the parent-database pointer,
modeled by the database's identity). -/
def CollectionHandle.DatabaseOf (c : CollectionHandle) : String := c.dbPath

/-- Database.Collection from mingodb.go: reject an empty name with
ErrEmptyBucketName, otherwise create the bucket if absent inside one
write transaction and return the handle. -/
def Database.Collection (db : Database) (name : String) :
    Except MErr CollectionHandle × Database :=
  if name = "" then (.error .errEmptyBucketName, db)
  else
    (.ok ⟨db.Path, name⟩, { db with store := createBucketIfNotExists db.store name })

/-- Collection.InsertMany from mingodb.go, exactly as written: the body
is `return nil, nil` (a stub), returning no ids, no error, and touching
nothing. -/
def InsertMany (w : World) (cname : String) (docs : List GoVal) :
    Option (List BVal) × Option MErr × World :=
  (none, none, w)

/-- The SingleResult record from results.go. -/
structure SingleResult where
  data : List Nat
deriving DecidableEq, Repr

/-- Collection.FindOne from mingodb.go, exactly as written: the body is
`return nil, nil` (a stub), returning no result and no error for every
filter and every collection state. -/
def FindOne (w : World) (cname : String) (filter : GoVal) (result : GoVal) :
    Option SingleResult × Option MErr :=
  (none, none)

/-- Looking up the key just assigned yields the assigned value. -/
theorem assocGet_assocSet_self {α β : Type} [DecidableEq α]
    (l : List (α × β)) (k : α) (v : β) : assocGet (assocSet l k v) k = some v := by
  induction l with
  | nil => simp [assocGet, assocSet]
  | cons hd tl ih =>
    by_cases h : hd.1 = k
    · simp [assocGet, assocSet, h]
    · simp [assocGet, assocSet, h, ih]

/-- Assigning an encodable value preserves document encodability. -/
theorem docEncodable_assocSet (d : Doc) (k : String) (v : BVal)
    (hd : docEncodable d = true) (hv : encodable v = true) :
    docEncodable (assocSet d k v) = true := by
  induction d with
  | nil => simp [docEncodable, assocSet, hv]
  | cons hd' tl ih =>
    rcases hd' with ⟨k', v'⟩
    simp only [docEncodable, List.all_cons, Bool.and_eq_true] at hd
    by_cases h : k' = k
    · simp [docEncodable, assocSet, h, hv, hd.2]
    · have htl := ih hd.2
      simp [assocSet, h, hd.1, docEncodable] at htl ⊢
      exact htl

/-- Every field value looked up in an encodable document is encodable. -/
theorem encodable_of_assocGet (d : Doc) (k : String) (v : BVal)
    (hget : assocGet d k = some v) (hd : docEncodable d = true) :
    encodable v = true := by
  induction d with
  | nil => simp [assocGet] at hget
  | cons hd' tl ih =>
    rcases hd' with ⟨k', v'⟩
    simp only [docEncodable, List.all_cons, Bool.and_eq_true] at hd
    by_cases h : k' = k
    · simp only [assocGet, h, if_pos rfl] at hget
      cases hget
      exact hd.1
    · simp only [assocGet, h, if_neg h] at hget
      exact ih hget (by simpa [docEncodable] using hd.2)

/-- An encodable value has a key encoding. -/
theorem encodeBVal_isSome (v : BVal) (hv : encodable v = true) :
    ∃ k, encodeBVal v = some k := by
  cases v <;> simp [encodeBVal, encodable] at hv ⊢

/-- InsertOne on a struct argument whose field map carries an `_id`:
the caller-supplied id is marshaled to the key, the unmodified document
is stored under it, and the id is returned.  The generator counter and
the heap are untouched. -/
theorem insertOne_struct_withid (w : World) (cname : String) (fields : Doc)
    (v : BVal) (b : Bucket) (k : Key)
    (hid : assocGet fields "_id" = some v)
    (henc : docEncodable fields = true)
    (hb : assocGet w.store cname = some b)
    (hk : encodeBVal v = some k) :
    InsertOne w cname (.goStruct fields) =
      (.ok v, { w with store := assocSet w.store cname (assocSet b k fields) }) := by
  simp only [InsertOne, reflectTypeOf, hid, hb, hk, bsonMarshal, henc, if_true]
  simp

/-- InsertOne on a struct argument without `_id`: a fresh ObjectID is
generated from the counter, injected into a copy of the field map
(structs.Map copies, so no caller-visible mutation), stored, and
returned; the counter advances. -/
theorem insertOne_struct_noid (w : World) (cname : String) (fields : Doc)
    (b : Bucket)
    (hid : assocGet fields "_id" = none)
    (henc : docEncodable fields = true)
    (hb : assocGet w.store cname = some b) :
    InsertOne w cname (.goStruct fields) =
      (.ok (.vOid (oidBytes w.oidCounter)),
        { w with
            oidCounter := w.oidCounter + 1,
            store := assocSet w.store cname
              (assocSet b (7 :: oidBytes w.oidCounter)
                (assocSet fields "_id" (.vOid (oidBytes w.oidCounter)))) }) := by
  have henc2 : docEncodable (assocSet fields "_id" (.vOid (oidBytes w.oidCounter))) = true :=
    docEncodable_assocSet fields "_id" _ henc rfl
  simp only [InsertOne, reflectTypeOf, hid, hb, encodeBVal, bsonMarshal, henc2, if_true]
  simp

/-- InsertOne on a live map argument whose map carries an `_id`: same as
the struct case, with the map read through its heap reference; the heap
is not written. -/
theorem insertOne_strMap_withid (w : World) (cname : String) (r : Nat)
    (v : BVal) (b : Bucket) (k : Key)
    (hid : assocGet (w.heap.getD r []) "_id" = some v)
    (henc : docEncodable (w.heap.getD r []) = true)
    (hb : assocGet w.store cname = some b)
    (hk : encodeBVal v = some k) :
    InsertOne w cname (.goStrMap r) =
      (.ok v,
        { w with store := assocSet w.store cname (assocSet b k (w.heap.getD r [])) }) := by
  simp only [InsertOne, reflectTypeOf, hid, hb, hk, bsonMarshal, henc, if_true]
  simp

/-- InsertOne on a live map argument without `_id`: the generated
ObjectID is written into the caller's map object (the heap cell at the
reference) before the document is marshaled and stored. -/
theorem insertOne_strMap_noid (w : World) (cname : String) (r : Nat)
    (b : Bucket)
    (hid : assocGet (w.heap.getD r []) "_id" = none)
    (henc : docEncodable (w.heap.getD r []) = true)
    (hb : assocGet w.store cname = some b) :
    InsertOne w cname (.goStrMap r) =
      (.ok (.vOid (oidBytes w.oidCounter)),
        ⟨assocSet w.store cname
            (assocSet b (7 :: oidBytes w.oidCounter)
              (assocSet (w.heap.getD r []) "_id" (.vOid (oidBytes w.oidCounter)))),
          w.heap.set r
            (assocSet (w.heap.getD r []) "_id" (.vOid (oidBytes w.oidCounter))),
          w.oidCounter + 1⟩) := by
  have henc2 :
      docEncodable (assocSet (w.heap.getD r []) "_id" (.vOid (oidBytes w.oidCounter))) = true :=
    docEncodable_assocSet _ "_id" _ henc rfl
  simp only [InsertOne, reflectTypeOf, hid, hb, encodeBVal, bsonMarshal, henc2, if_true]
  simp

/-- Generated identifiers are always 12 bytes long. -/
theorem oidBytes_length (n : Nat) : (oidBytes n).length = 12 := by
  simp [oidBytes]

/-- After create-if-absent, the bucket exists. -/
theorem createBucketIfNotExists_exists (s : Store) (name : String) :
    (assocGet (createBucketIfNotExists s name) name).isSome = true := by
  unfold createBucketIfNotExists
  cases h : assocGet s name with
  | none => simp [assocGet_assocSet_self]
  | some b => simp [h]

/-- Create-if-absent leaves a store that already has the bucket unchanged. -/
theorem createBucketIfNotExists_of_exists (s : Store) (name : String)
    (h : (assocGet s name).isSome = true) : createBucketIfNotExists s name = s := by
  unfold createBucketIfNotExists
  cases hx : assocGet s name with
  | none => rw [hx] at h; simp at h
  | some b => simp

/-- C1: for every valid document `d` (struct or string-keyed map) without
an `_id` field, inserted into an existing collection, InsertOne returns
the freshly generated identifier (the ObjectID produced from the current
generator state) and a subsequent GetByID on that identifier returns the
document equal to `d` plus the injected `_id` field. -/
theorem insertOne_getByID_roundtrip (w : World) (cname : String) (dv : GoVal)
    (d : Doc) (b : Bucket)
    (hnorm : normalizedDoc w dv = some d)
    (hid : assocGet d "_id" = none)
    (henc : docEncodable d = true)
    (hb : assocGet w.store cname = some b) :
    ∃ id w', InsertOne w cname dv = (.ok id, w') ∧
      id = .vOid (oidBytes w.oidCounter) ∧
      GetByID w' cname id = .ok (assocSet d "_id" id) := by
  cases dv with
  | goStruct fields =>
    simp only [normalizedDoc, Option.some.injEq] at hnorm
    subst hnorm
    refine ⟨.vOid (oidBytes w.oidCounter), _,
      insertOne_struct_noid w cname fields b hid henc hb, rfl, ?_⟩
    simp only [GetByID, encodeBVal, assocGet_assocSet_self]
  | goStrMap r =>
    simp only [normalizedDoc, Option.some.injEq] at hnorm
    subst hnorm
    refine ⟨.vOid (oidBytes w.oidCounter), _,
      insertOne_strMap_noid w cname r b hid henc hb, rfl, ?_⟩
    simp only [GetByID, encodeBVal, assocGet_assocSet_self]
  | goNil => simp [normalizedDoc] at hnorm
  | goInt n => simp [normalizedDoc] at hnorm
  | goString s => simp [normalizedDoc] at hnorm
  | goOtherMap => simp [normalizedDoc] at hnorm

/-- Witness for C1: inserting `{"name": "Ann"}` (a live map, heap
reference 0) into the existing empty collection `users`. -/
theorem insertOne_getByID_roundtrip_witness :
    ∃ id w', InsertOne ⟨[("users", [])], [[("name", BVal.vStr "Ann")]], 0⟩ "users"
        (GoVal.goStrMap 0) = (.ok id, w') ∧
      id = .vOid (oidBytes 0) ∧
      GetByID w' "users" id = .ok (assocSet [("name", BVal.vStr "Ann")] "_id" id) :=
  insertOne_getByID_roundtrip ⟨[("users", [])], [[("name", BVal.vStr "Ann")]], 0⟩
    "users" (GoVal.goStrMap 0) [("name", BVal.vStr "Ann")] [] rfl rfl rfl rfl

/-- C2: id policy of InsertOne on a valid normalized document in an
existing collection.  If the document carries `_id`, that exact value is
marshaled to the key, the document is stored unchanged under it, and the
value itself is returned as InsertID.  If `_id` is absent, the freshly
generated 12-byte ObjectID is injected under `_id` before persisting,
the stored record is the injected document, and the generated value is
returned. -/
theorem insertOne_id_policy (w : World) (cname : String) (dv : GoVal)
    (d : Doc) (b : Bucket)
    (hnorm : normalizedDoc w dv = some d)
    (henc : docEncodable d = true)
    (hb : assocGet w.store cname = some b) :
    (∀ v, assocGet d "_id" = some v →
      ∃ k, encodeBVal v = some k ∧
        InsertOne w cname dv =
          (.ok v, { w with store := assocSet w.store cname (assocSet b k d) })) ∧
    (assocGet d "_id" = none →
      (oidBytes w.oidCounter).length = 12 ∧
      (InsertOne w cname dv).1 = .ok (.vOid (oidBytes w.oidCounter)) ∧
      assocGet ((InsertOne w cname dv).2).store cname =
        some (assocSet b (7 :: oidBytes w.oidCounter)
          (assocSet d "_id" (.vOid (oidBytes w.oidCounter)))) ∧
      assocGet (assocSet d "_id" (.vOid (oidBytes w.oidCounter))) "_id" =
        some (.vOid (oidBytes w.oidCounter))) := by
  constructor
  · intro v hv
    obtain ⟨k, hk⟩ := encodeBVal_isSome v (encodable_of_assocGet d "_id" v hv henc)
    refine ⟨k, hk, ?_⟩
    cases dv with
    | goStruct fields =>
      simp only [normalizedDoc, Option.some.injEq] at hnorm
      subst hnorm
      exact insertOne_struct_withid w cname fields v b k hv henc hb hk
    | goStrMap r =>
      simp only [normalizedDoc, Option.some.injEq] at hnorm
      subst hnorm
      exact insertOne_strMap_withid w cname r v b k hv henc hb hk
    | goNil => simp [normalizedDoc] at hnorm
    | goInt n => simp [normalizedDoc] at hnorm
    | goString s => simp [normalizedDoc] at hnorm
    | goOtherMap => simp [normalizedDoc] at hnorm
  · intro hno
    refine ⟨oidBytes_length w.oidCounter, ?_⟩
    cases dv with
    | goStruct fields =>
      simp only [normalizedDoc, Option.some.injEq] at hnorm
      subst hnorm
      rw [insertOne_struct_noid w cname fields b hno henc hb]
      exact ⟨rfl, assocGet_assocSet_self _ _ _, assocGet_assocSet_self _ _ _⟩
    | goStrMap r =>
      simp only [normalizedDoc, Option.some.injEq] at hnorm
      subst hnorm
      rw [insertOne_strMap_noid w cname r b hno henc hb]
      exact ⟨rfl, assocGet_assocSet_self _ _ _, assocGet_assocSet_self _ _ _⟩
    | goNil => simp [normalizedDoc] at hnorm
    | goInt n => simp [normalizedDoc] at hnorm
    | goString s => simp [normalizedDoc] at hnorm
    | goOtherMap => simp [normalizedDoc] at hnorm

/-- Witness for C2 (caller-supplied branch): inserting the struct
`{_id: 42, name: "Bo"}` into the existing empty collection `users`
returns 42 and stores the unchanged document under 42's key. -/
theorem insertOne_id_policy_witness :
    ∃ k, encodeBVal (BVal.vInt 42) = some k ∧
      InsertOne ⟨[("users", [])], [], 0⟩ "users"
          (GoVal.goStruct [("_id", BVal.vInt 42), ("name", BVal.vStr "Bo")]) =
        (.ok (BVal.vInt 42),
          { (⟨[("users", [])], [], 0⟩ : World) with
              store := assocSet [("users", [])] "users"
                (assocSet [] k [("_id", BVal.vInt 42), ("name", BVal.vStr "Bo")]) }) :=
  (insertOne_id_policy ⟨[("users", [])], [], 0⟩ "users"
      (GoVal.goStruct [("_id", BVal.vInt 42), ("name", BVal.vStr "Bo")])
      [("_id", BVal.vInt 42), ("name", BVal.vStr "Bo")] [] rfl rfl rfl).1
    (BVal.vInt 42) rfl

/-- C3: when the key marshaled from the incoming document's `_id`
already holds a record in the collection's bucket, InsertOne still
succeeds (no duplicate-key error) and its single put replaces that
record with the new document: upsert semantics by silent overwrite.
The put is the one atomic store update shown on the right-hand side. -/
theorem insertOne_upsert_overwrite (w : World) (cname : String) (dv : GoVal)
    (d : Doc) (b : Bucket) (v : BVal) (k : Key) (old : Doc)
    (hnorm : normalizedDoc w dv = some d)
    (henc : docEncodable d = true)
    (hb : assocGet w.store cname = some b)
    (hid : assocGet d "_id" = some v)
    (hk : encodeBVal v = some k)
    (hold : assocGet b k = some old) :
    InsertOne w cname dv =
      (.ok v, { w with store := assocSet w.store cname (assocSet b k d) }) ∧
    assocGet (assocSet b k d) k = some d := by
  refine ⟨?_, assocGet_assocSet_self b k d⟩
  cases dv with
  | goStruct fields =>
    simp only [normalizedDoc, Option.some.injEq] at hnorm
    subst hnorm
    exact insertOne_struct_withid w cname fields v b k hid henc hb hk
  | goStrMap r =>
    simp only [normalizedDoc, Option.some.injEq] at hnorm
    subst hnorm
    exact insertOne_strMap_withid w cname r v b k hid henc hb hk
  | goNil => simp [normalizedDoc] at hnorm
  | goInt n => simp [normalizedDoc] at hnorm
  | goString s => simp [normalizedDoc] at hnorm
  | goOtherMap => simp [normalizedDoc] at hnorm

/-- Witness for C3: `users` already holds `{_id: 42, name: "Bo"}` under
42's key; inserting the struct `{_id: 42, name: "Cy"}` succeeds and
overwrites it. -/
theorem insertOne_upsert_overwrite_witness :
    InsertOne
        ⟨[("users", [([16, 1, 42], [("_id", BVal.vInt 42), ("name", BVal.vStr "Bo")])])],
          [], 0⟩
        "users" (GoVal.goStruct [("_id", BVal.vInt 42), ("name", BVal.vStr "Cy")]) =
      (.ok (BVal.vInt 42),
        { (⟨[("users", [([16, 1, 42], [("_id", BVal.vInt 42), ("name", BVal.vStr "Bo")])])],
              [], 0⟩ : World) with
            store := assocSet
              [("users", [([16, 1, 42], [("_id", BVal.vInt 42), ("name", BVal.vStr "Bo")])])]
              "users"
              (assocSet [([16, 1, 42], [("_id", BVal.vInt 42), ("name", BVal.vStr "Bo")])]
                [16, 1, 42] [("_id", BVal.vInt 42), ("name", BVal.vStr "Cy")]) }) ∧
    assocGet
        (assocSet [([16, 1, 42], [("_id", BVal.vInt 42), ("name", BVal.vStr "Bo")])]
          [16, 1, 42] [("_id", BVal.vInt 42), ("name", BVal.vStr "Cy")])
        [16, 1, 42] =
      some [("_id", BVal.vInt 42), ("name", BVal.vStr "Cy")] :=
  insertOne_upsert_overwrite
    ⟨[("users", [([16, 1, 42], [("_id", BVal.vInt 42), ("name", BVal.vStr "Bo")])])], [], 0⟩
    "users" (GoVal.goStruct [("_id", BVal.vInt 42), ("name", BVal.vStr "Cy")])
    [("_id", BVal.vInt 42), ("name", BVal.vStr "Cy")]
    [([16, 1, 42], [("_id", BVal.vInt 42), ("name", BVal.vStr "Bo")])]
    (BVal.vInt 42) [16, 1, 42] [("_id", BVal.vInt 42), ("name", BVal.vStr "Bo")]
    rfl rfl rfl rfl rfl rfl

/-- C4: an argument whose runtime shape is neither a struct nor a
string-keyed map (and which is not the nil interface, whose kind
inspection panics) makes InsertOne fail with InvalidTypeError and leave
the whole world — store, heap, and generator — unchanged. -/
theorem insertOne_invalid_type_no_write (w : World) (cname : String) (dv : GoVal)
    (hnil : dv ≠ GoVal.goNil)
    (hshape : isStructOrStrMap dv = false) :
    InsertOne w cname dv = (.fail .errInvalidType, w) := by
  cases dv with
  | goNil => exact absurd rfl hnil
  | goInt n => rfl
  | goString s => rfl
  | goStruct fields => simp [isStructOrStrMap] at hshape
  | goStrMap r => simp [isStructOrStrMap] at hshape
  | goOtherMap => rfl

/-- Witness for C4: inserting the raw number 7. -/
theorem insertOne_invalid_type_no_write_witness :
    InsertOne ⟨[("users", [])], [], 0⟩ "users" (GoVal.goInt 7) =
      (.fail .errInvalidType, ⟨[("users", [])], [], 0⟩) :=
  insertOne_invalid_type_no_write ⟨[("users", [])], [], 0⟩ "users" (GoVal.goInt 7)
    (by decide) rfl

/-- C5: GetByID on an id that marshals successfully but has no record
under its key in the collection's (existing) bucket fails with the
"document not found" error, and in particular never returns a document
without an error. -/
theorem getByID_absent_not_found (w : World) (cname : String) (id : BVal)
    (bid : Key) (b : Bucket)
    (henc : encodeBVal id = some bid)
    (hb : assocGet w.store cname = some b)
    (habs : assocGet b bid = none) :
    GetByID w cname id = .fail .errNotFound ∧
    ∀ d, GetByID w cname id ≠ .ok d := by
  have h : GetByID w cname id = .fail .errNotFound := by
    simp [GetByID, henc, hb, habs]
  exact ⟨h, fun d hd => by rw [h] at hd; cases hd⟩

/-- Witness for C5: looking up id 1 in the existing empty collection
`users`. -/
theorem getByID_absent_not_found_witness :
    GetByID ⟨[("users", [])], [], 0⟩ "users" (BVal.vInt 1) = .fail .errNotFound ∧
    ∀ d, GetByID ⟨[("users", [])], [], 0⟩ "users" (BVal.vInt 1) ≠ .ok d :=
  getByID_absent_not_found ⟨[("users", [])], [], 0⟩ "users" (BVal.vInt 1)
    [16, 1, 1] [] rfl rfl rfl

/-- C6: FindOne as written in the source is a stub: for every collection
state and every filter — in particular an empty collection where the
claim demands NotFoundError — it returns no result and no error, never
scanning and never failing. -/
theorem findOne_stub_returns_nothing (w : World) (cname : String)
    (filter : GoVal) (result : GoVal) :
    FindOne w cname filter result = (none, none) := rfl

/-- C7: InsertMany as written in the source is a stub: for every input
slice — in particular a one-element slice for which the claim demands a
one-element id sequence — it returns no ids and no error and leaves the
store, heap, and generator untouched. -/
theorem insertMany_stub_returns_nothing (w : World) (cname : String)
    (docs : List GoVal) :
    InsertMany w cname docs = (none, none, w) := rfl

/-- C8: Database.Collection fails with ErrEmptyBucketName exactly on the
empty name, leaving the database untouched; on every non-empty name it
succeeds, ensures the named bucket exists in the resulting database,
returns a handle whose Name is the given name and whose parent-database
pointer is the receiver, and a repeated call on the result is a no-op
returning the same handle. -/
theorem collection_name_policy (db : Database) (name : String) :
    (Database.Collection db "" = (.error .errEmptyBucketName, db)) ∧
    (name ≠ "" →
      ∃ db2, Database.Collection db name = (.ok ⟨db.Path, name⟩, db2) ∧
        CollectionHandle.Name ⟨db.Path, name⟩ = name ∧
        CollectionHandle.DatabaseOf ⟨db.Path, name⟩ = db.Path ∧
        (assocGet db2.store name).isSome = true ∧
        Database.Collection db2 name = (.ok ⟨db.Path, name⟩, db2)) := by
  constructor
  · simp [Database.Collection]
  · intro hne
    refine ⟨{ db with store := createBucketIfNotExists db.store name },
      ?_, rfl, rfl, createBucketIfNotExists_exists db.store name, ?_⟩
    · simp [Database.Collection, hne]
    · have hidem :
          createBucketIfNotExists (createBucketIfNotExists db.store name) name =
            createBucketIfNotExists db.store name :=
        createBucketIfNotExists_of_exists _ name (createBucketIfNotExists_exists db.store name)
      simp [Database.Collection, hne, hidem]

/-- Witness for C8: creating collection `users` on a fresh database. -/
theorem collection_name_policy_witness :
    ∃ db2, Database.Collection ⟨"mingo.db", []⟩ "users" =
        (.ok ⟨"mingo.db", "users"⟩, db2) ∧
      CollectionHandle.Name ⟨"mingo.db", "users"⟩ = "users" ∧
      CollectionHandle.DatabaseOf ⟨"mingo.db", "users"⟩ = "mingo.db" ∧
      (assocGet db2.store "users").isSome = true ∧
      Database.Collection db2 "users" = (.ok ⟨"mingo.db", "users"⟩, db2) :=
  (collection_name_policy ⟨"mingo.db", []⟩ "users").2 (by decide)

/-- C9: when InsertOne is given a live map (heap reference) without an
`_id` entry and succeeds, the caller's own map object — the heap cell
behind the reference — has been mutated in place: afterwards it carries
the generated ObjectID under the key `_id`. -/
theorem insertOne_mutates_caller_map (w : World) (cname : String) (r : Nat)
    (d : Doc) (b : Bucket)
    (hr : w.heap.get? r = some d)
    (hid : assocGet d "_id" = none)
    (henc : docEncodable d = true)
    (hb : assocGet w.store cname = some b) :
    ∃ id w', InsertOne w cname (.goStrMap r) = (.ok id, w') ∧
      id = .vOid (oidBytes w.oidCounter) ∧
      w'.heap.get? r = some (assocSet d "_id" id) ∧
      assocGet (assocSet d "_id" id) "_id" = some id := by
  have hlen : r < w.heap.length := by
    rcases List.get?_eq_some.mp hr with ⟨hlt, _⟩
    exact hlt
  have hr' : w.heap[r]? = some d := by
    rw [← List.get?_eq_getElem?]
    exact hr
  have hgetD : w.heap.getD r [] = d := by
    simp [List.getD_eq_getElem?_getD, hr']
  have hid' : assocGet (w.heap.getD r []) "_id" = none := by rw [hgetD]; exact hid
  have henc' : docEncodable (w.heap.getD r []) = true := by rw [hgetD]; exact henc
  refine ⟨.vOid (oidBytes w.oidCounter), _,
    insertOne_strMap_noid w cname r b hid' henc' hb, rfl, ?_, assocGet_assocSet_self _ _ _⟩
  simp only [hgetD]
  rw [List.get?_eq_getElem?]
  exact List.getElem?_set_eq_of_lt _ hlen

/-- Witness for C9: inserting the live map `{"name": "Ann"}` at heap
reference 0 leaves the caller's map holding the generated `_id`. -/
theorem insertOne_mutates_caller_map_witness :
    ∃ id w', InsertOne ⟨[("users", [])], [[("name", BVal.vStr "Ann")]], 5⟩ "users"
        (GoVal.goStrMap 0) = (.ok id, w') ∧
      id = .vOid (oidBytes 5) ∧
      w'.heap.get? 0 = some (assocSet [("name", BVal.vStr "Ann")] "_id" id) ∧
      assocGet (assocSet [("name", BVal.vStr "Ann")] "_id" id) "_id" = some id :=
  insertOne_mutates_caller_map ⟨[("users", [])], [[("name", BVal.vStr "Ann")]], 5⟩
    "users" 0 [("name", BVal.vStr "Ann")] [] rfl rfl rfl rfl

/-- C10: InsertOne on the untyped nil interface panics — reflect.TypeOf
yields the nil type, whose Kind() call faults — rather than returning
InvalidTypeError, so freedom from panics requires the precondition that
the argument is non-nil. -/
theorem insertOne_nil_panics (w : World) (cname : String) :
    InsertOne w cname .goNil = (.panicked, w) ∧
    (InsertOne w cname .goNil).1 ≠ .fail .errInvalidType := by
  exact ⟨rfl, fun h => by cases h⟩

end MingoDB
